import Mathlib

/-!
Verification development for the AutoSpendTracker repository.

This file gives a shallow embedding, in Lean 4, of the extraction-and-commit
pipeline of AutoSpendTracker (Python): the Pydantic `Transaction` model
(`src/autospendtracker/models.py`), the response normalisation and category
hints (`src/autospendtracker/ai.py`), the sliding-window rate limiter
(`src/autospendtracker/rate_limiter.py`), the e-mail parser
(`src/autospendtracker/mail.py`) and the orchestration loop
(`src/autospendtracker/main.py`).

Python strings are modelled as `List Char` (`Txt`).  Calls into external
libraries whose behaviour is not part of the repository (the Gmail service,
the Vertex AI endpoint, BeautifulSoup text extraction, `email.utils` date
parsing) are modelled as explicit oracle parameters returning `Except`
values, so that an oracle raising an exception is representable.  The
`tenacity` retry decorator and Python's `json.loads` are embedded from their
documented semantics, since their sources are not part of the repository.
-/

namespace AutoSpend

/-- Python strings are modelled as lists of characters. -/
abbrev Txt := List Char

/-- Left brace character (written numerically so that braces never occur
in character literals). -/
def lbrace : Char := Char.ofNat 123

/-- Right brace character. -/
def rbrace : Char := Char.ofNat 125

/-- ASCII lower-case mapping of a character, as used by `str.lower()` on the
ASCII merchant/hint strings the code compares. -/
def lowChar (c : Char) : Char :=
  if c = 'A' then 'a' else if c = 'B' then 'b' else if c = 'C' then 'c'
  else if c = 'D' then 'd' else if c = 'E' then 'e' else if c = 'F' then 'f'
  else if c = 'G' then 'g' else if c = 'H' then 'h' else if c = 'I' then 'i'
  else if c = 'J' then 'j' else if c = 'K' then 'k' else if c = 'L' then 'l'
  else if c = 'M' then 'm' else if c = 'N' then 'n' else if c = 'O' then 'o'
  else if c = 'P' then 'p' else if c = 'Q' then 'q' else if c = 'R' then 'r'
  else if c = 'S' then 's' else if c = 'T' then 't' else if c = 'U' then 'u'
  else if c = 'V' then 'v' else if c = 'W' then 'w' else if c = 'X' then 'x'
  else if c = 'Y' then 'y' else if c = 'Z' then 'z' else c

/-- U+00DF, LATIN SMALL LETTER SHARP S, whose `str.upper()` image is the
two-character string `SS`. -/
def sharpS : Char := Char.ofNat 223

/-- The upper-case mappings of `str.upper()`, a per-character FULL case
mapping under which a character maps to a string and may expand: the 26
ASCII letters and — standing for the expanding part of Python's Unicode
case table — the sharp s `ß` ↦ `SS`.  Characters outside the table are
unchanged.  (Python expands a few dozen further code points, ligatures and
the like; no other expanding character appears in this development.) -/
def upTable : List (Char × Txt) :=
  [('a', ['A']), ('b', ['B']), ('c', ['C']), ('d', ['D']), ('e', ['E']),
   ('f', ['F']), ('g', ['G']), ('h', ['H']), ('i', ['I']), ('j', ['J']),
   ('k', ['K']), ('l', ['L']), ('m', ['M']), ('n', ['N']), ('o', ['O']),
   ('p', ['P']), ('q', ['Q']), ('r', ['R']), ('s', ['S']), ('t', ['T']),
   ('u', ['U']), ('v', ['V']), ('w', ['W']), ('x', ['X']), ('y', ['Y']),
   ('z', ['Z']), (sharpS, ['S', 'S'])]

/-- Upper-casing one character: its full-case image, itself if untabled. -/
def upCharStr (c : Char) : Txt :=
  ((upTable.find? (fun p => p.1 = c)).map Prod.snd).getD [c]

/-- Lower-casing a whole string (`str.lower()`). -/
def lowTxt (s : Txt) : Txt := s.map lowChar

/-- Upper-casing a whole string (`str.upper()`): the concatenation of the
characters' full-case images, which need not preserve the length. -/
def upTxt (s : Txt) : Txt := s.flatMap upCharStr

/-- Whether `p` occurs at the start of `s` (used both by the regex embedding
and by Python's `in` substring test). -/
def startsWithTxt (p s : Txt) : Bool :=
  match p, s with
  | [], _ => true
  | q :: qs, c :: cs => q = c && startsWithTxt qs cs
  | _ :: _, [] => false

/-- Python's substring containment `p in s`. -/
def containsTxt (s p : Txt) : Bool :=
  match s with
  | [] => startsWithTxt p []
  | _ :: rest => startsWithTxt p s || containsTxt rest p

/-- ASCII decimal digit test (`\d` for the patterns the code uses). -/
def isDigitCh (c : Char) : Bool := '0' ≤ c && c ≤ '9'

/-- Digit value of an ASCII digit character. -/
def digitVal (c : Char) : Nat := c.toNat - '0'.toNat

end AutoSpend

namespace AutoSpend

/-! ## Embedding of `models.py`: the `Transaction` Pydantic model -/

/-- JSON values, as produced by Python's `json.loads`.  Numbers are kept as
their source text: the pipeline never uses their numeric value (a non-string
JSON value in a string field is a validation error). -/
inductive Json where
  | null : Json
  | bool (b : Bool) : Json
  | num (tok : Txt) : Json
  | str (s : Txt) : Json
  | arr (elems : List Json) : Json
  | obj (fields : List (Txt × Json)) : Json

/-- A decoded JSON object (a Python dict with string keys). -/
abbrev Dict := List (Txt × Json)

/-- Dictionary lookup.  `json.loads` lets a later duplicate key overwrite an
earlier one, so the last binding wins. -/
def dictGet (d : Dict) (k : Txt) : Option Json :=
  match d with
  | [] => none
  | (k0, v0) :: rest =>
      match dictGet rest k with
      | some v => some v
      | none => if k0 = k then some v0 else none

/-- Dictionary update `d[k] = v` (only ever read back through `dictGet`,
for which appending realises Python's overwrite). -/
def dictSet (d : Dict) (k : Txt) (v : Json) : Dict := d ++ [(k, v)]

/-- The seven field keys of the transaction schema, as named constants so
that rewriting steps match them syntactically. -/
def kAmount : Txt := "amount".toList

/-- Key of the `currency` field. -/
def kCurrency : Txt := "currency".toList

/-- Key of the `merchant` field. -/
def kMerchant : Txt := "merchant".toList

/-- Key of the `category` field. -/
def kCategory : Txt := "category".toList

/-- Key of the `date` field. -/
def kDate : Txt := "date".toList

/-- Key of the `time` field. -/
def kTime : Txt := "time".toList

/-- Key of the `account` field. -/
def kAccount : Txt := "account".toList

/-- The closed category enumeration `ALLOWED_CATEGORIES` of `models.py`. -/
def allowedCategories : List Txt :=
  ["Transport".toList, "Food & Dining".toList, "Travel".toList,
   "Home".toList, "Utilities".toList, "People".toList,
   "Shopping".toList, "Grocery".toList, "Other".toList]

/-- Amount pattern of `models.py`: one or more digits, a dot, exactly two
digits (`^\d+\.\d{2}$`, with the anchors read as whole-string match). -/
def amountOk (s : Txt) : Bool :=
  let digits := s.takeWhile isDigitCh
  let rest := s.dropWhile isDigitCh
  decide (0 < digits.length) &&
    (match rest with
     | '.' :: d1 :: d2 :: [] => isDigitCh d1 && isDigitCh d2
     | _ => false)

/-- Day count of a month, with the Gregorian leap rule (what
`datetime.strptime` enforces when it builds the date). -/
def daysInMonth (y m : Nat) : Nat :=
  if m = 2 then
    (if y % 4 = 0 && (y % 100 ≠ 0 || y % 400 = 0) then 29 else 28)
  else if m = 4 || m = 6 || m = 9 || m = 11 then 30
  else 31

/-- Consume the `%d` (or `%m`) field of `strptime`: the regex alternation
`3[01]|[12]\d|0[1-9]|[1-9]` for days (`1[0-2]|0[1-9]|[1-9]` for months)
accepts exactly the two-digit strings whose value lies in `1..hi`, and
otherwise falls back to a single nonzero digit. -/
def takeDayField (hi : Nat) (s : Txt) : Option (Nat × Txt) :=
  match s with
  | c1 :: c2 :: rest =>
      if isDigitCh c1 && isDigitCh c2 then
        let v := 10 * digitVal c1 + digitVal c2
        if 1 ≤ v && v ≤ hi then some (v, rest)
        else if 1 ≤ digitVal c1 then some (digitVal c1, c2 :: rest)
        else none
      else if isDigitCh c1 && 1 ≤ digitVal c1 then some (digitVal c1, c2 :: rest)
      else none
  | [c1] => if isDigitCh c1 && 1 ≤ digitVal c1 then some (digitVal c1, []) else none
  | [] => none

/-- The `validate_date_format` validator: `datetime.strptime(v, "%d-%m-%Y")`
succeeds exactly when the text is `DD-MM-YYYY` (one or two digits for day and
month, exactly four for the year) naming a real calendar date. -/
def dateOk (s : Txt) : Bool :=
  match takeDayField 31 s with
  | none => false
  | some (d, rest1) =>
      match rest1 with
      | '-' :: rest2 =>
          (match takeDayField 12 rest2 with
           | none => false
           | some (m, rest3) =>
               match rest3 with
               | '-' :: y1 :: y2 :: y3 :: y4 :: [] =>
                   isDigitCh y1 && isDigitCh y2 && isDigitCh y3 && isDigitCh y4 &&
                     (let y := 1000 * digitVal y1 + 100 * digitVal y2 +
                               10 * digitVal y3 + digitVal y4
                      decide (1 ≤ d) && decide (d ≤ daysInMonth y m))
               | _ => false)
      | _ => false

/-- The `validate_time_format` validator:
`^(0[1-9]|1[0-2]|[1-9]):[0-5][0-9] [AP]M$`. -/
def timeOk (s : Txt) : Bool :=
  let tail12 : Txt → Bool := fun t =>
    match t with
    | ':' :: m1 :: m2 :: ' ' :: ap :: 'M' :: [] =>
        ('0' ≤ m1 && m1 ≤ '5') && isDigitCh m2 && (ap = 'A' || ap = 'P')
    | _ => false
  match s with
  | '0' :: d :: rest => ('1' ≤ d && d ≤ '9') && tail12 rest
  | '1' :: d :: rest =>
      if '0' ≤ d && d ≤ '2' then tail12 rest
      else tail12 (d :: rest)
  | d :: rest => ('1' ≤ d && d ≤ '9') && tail12 rest
  | [] => false

/-- The two literal `account` values of `models.py`. -/
def allowedAccounts : List Txt := ["Wise".toList, "PayPal".toList]

/-- The validated transaction entity of `models.py`. -/
structure Transaction where
  amount : Txt
  currency : Txt
  merchant : Txt
  category : Txt
  date : Txt
  time : Txt
  account : Txt
deriving DecidableEq, Repr

/-- Validation errors; the Pydantic model rejects the whole record on the
first violated constraint (all-or-nothing). -/
inductive ValErr where
  | missing (field : Txt) : ValErr
  | notAString (field : Txt) : ValErr
  | badValue (field : Txt) : ValErr
deriving DecidableEq, Repr

/-- Read a required string field from the candidate dict: Pydantic treats a
missing key as `missing` and a non-string JSON value in a `str` field as a
type error. -/
def getStrField (d : Dict) (k : Txt) : Except ValErr Txt :=
  match dictGet d k with
  | none => .error (.missing k)
  | some (Json.str s) => .ok s
  | some _ => .error (.notAString k)

/-- Embedding of `Transaction.from_dict` / `Transaction(**data)`:
per-field constraints of `models.py` lines 29-66.  `merchant` is declared
`str` with no further constraint; `currency` must have length exactly 3 and
is upper-cased by the `uppercase_currency` validator, which runs after the
length check; extra keys are ignored (Pydantic default); any violation
rejects the whole record. -/
def fromDict (d : Dict) : Except ValErr Transaction :=
  match getStrField d kAmount with
  | .error e => .error e
  | .ok amount =>
    if amountOk amount then
      match getStrField d kCurrency with
      | .error e => .error e
      | .ok currency =>
        if currency.length = 3 then
          match getStrField d kMerchant with
          | .error e => .error e
          | .ok merchant =>
            match getStrField d kCategory with
            | .error e => .error e
            | .ok category =>
              if allowedCategories.contains category then
                match getStrField d kDate with
                | .error e => .error e
                | .ok date =>
                  if dateOk date then
                    match getStrField d kTime with
                    | .error e => .error e
                    | .ok time =>
                      if timeOk time then
                        match getStrField d kAccount with
                        | .error e => .error e
                        | .ok account =>
                          if allowedAccounts.contains account then
                            .ok { amount := amount, currency := upTxt currency,
                                  merchant := merchant, category := category,
                                  date := date, time := time, account := account }
                          else .error (.badValue kAccount)
                  else .error (.badValue kTime)
              else .error (.badValue kDate)
          else .error (.badValue kCategory)
        else .error (.badValue kCurrency)
    else .error (.badValue kAmount)

/-- `Transaction.to_sheet_row`: the fixed 7-column order
date, time, merchant, amount, currency, category, account. -/
def toSheetRow (t : Transaction) : List Txt :=
  [t.date, t.time, t.merchant, t.amount, t.currency, t.category, t.account]

end AutoSpend

namespace AutoSpend

/-! ## Embedding of `json.loads`

Python's `json.loads` (strict mode, default flags) is embedded as a
recursive-descent parser over `Txt`, fuelled for termination.  Numbers keep
their source text; the non-standard `NaN`/`Infinity` extensions that
`json.loads` accepts by default are included as number tokens.  Lone
surrogate combination in `\u` escapes is not modelled (no claim depends on
it). -/

/-- JSON whitespace accepted between tokens (`json.decoder`). -/
def isJsonWs (c : Char) : Bool := c = ' ' || c = '\t' || c = '\n' || c = '\r'

/-- Skip inter-token whitespace. -/
def skipWs (s : Txt) : Txt := s.dropWhile isJsonWs

/-- Hexadecimal digit value, for `\uXXXX` escapes (digits, then the
lower-case and upper-case letter ranges, by code point). -/
def hexVal (c : Char) : Option Nat :=
  let n := c.toNat
  if 48 ≤ n ∧ n ≤ 57 then some (n - 48)
  else if 97 ≤ n ∧ n ≤ 102 then some (n - 87)
  else if 65 ≤ n ∧ n ≤ 70 then some (n - 55)
  else none

/-- Parse the body of a JSON string after its opening quote, returning the
decoded content and the remaining input after the closing quote.  Strict
mode: unescaped control characters are rejected. -/
def parseJStr : Nat → Txt → Option (Txt × Txt)
  | 0, _ => none
  | Nat.succ fuel, s =>
    match s with
    | [] => none
    | '"' :: rest => some ([], rest)
    | '\\' :: e :: rest =>
        (match e with
         | '"' => (parseJStr fuel rest).map (fun (t, r) => ('"' :: t, r))
         | '\\' => (parseJStr fuel rest).map (fun (t, r) => ('\\' :: t, r))
         | '/' => (parseJStr fuel rest).map (fun (t, r) => ('/' :: t, r))
         | 'b' => (parseJStr fuel rest).map (fun (t, r) => (Char.ofNat 8 :: t, r))
         | 'f' => (parseJStr fuel rest).map (fun (t, r) => (Char.ofNat 12 :: t, r))
         | 'n' => (parseJStr fuel rest).map (fun (t, r) => ('\n' :: t, r))
         | 'r' => (parseJStr fuel rest).map (fun (t, r) => (Char.ofNat 13 :: t, r))
         | 't' => (parseJStr fuel rest).map (fun (t, r) => ('\t' :: t, r))
         | 'u' =>
             (match rest with
              | h1 :: h2 :: h3 :: h4 :: rest2 =>
                  match hexVal h1, hexVal h2, hexVal h3, hexVal h4 with
                  | some a, some b, some c, some d =>
                      (parseJStr fuel rest2).map
                        (fun (t, r) =>
                          (Char.ofNat (4096 * a + 256 * b + 16 * c + d) :: t, r))
                  | _, _, _, _ => none
              | _ => none)
         | _ => none)
    | c :: rest =>
        if c.toNat < 32 then none
        else (parseJStr fuel rest).map (fun (t, r) => (c :: t, r))

/-- Parse a JSON number token (or the `Infinity` extension), returning the
token text and the remaining input.
Grammar: `-?(0|[1-9][0-9]*)(.[0-9]+)?([eE][+-]?[0-9]+)?`. -/
def parseNumTok (s : Txt) : Option (Txt × Txt) :=
  let (sign, s1) : Txt × Txt :=
    match s with
    | '-' :: r => (['-'], r)
    | _ => ([], s)
  if startsWithTxt "Infinity".toList s1 then
    some (sign ++ "Infinity".toList, s1.drop 8)
  else
    match s1 with
    | [] => none
    | c :: _ =>
        if ¬ isDigitCh c then none
        else
          let intPart :=
            if c = '0' then ['0'] else s1.takeWhile isDigitCh
          let r1 := s1.drop intPart.length
          let (frac, r2) : Txt × Txt :=
            match r1 with
            | '.' :: d :: r =>
                if isDigitCh d then
                  let ds := (d :: r).takeWhile isDigitCh
                  ('.' :: ds, (d :: r).drop ds.length)
                else ([], r1)
            | _ => ([], r1)
          let (expPart, r3) : Txt × Txt :=
            match r2 with
            | e :: r =>
                if e = 'e' || e = 'E' then
                  let (es, r') : Txt × Txt :=
                    match r with
                    | '+' :: r'' => (['+'], r'')
                    | '-' :: r'' => (['-'], r'')
                    | _ => ([], r)
                  match r' with
                  | d :: _ =>
                      if isDigitCh d then
                        let ds := r'.takeWhile isDigitCh
                        (e :: es ++ ds, r'.drop ds.length)
                      else ([], r2)
                  | [] => ([], r2)
                else ([], r2)
            | [] => ([], r2)
          some (sign ++ intPart ++ frac ++ expPart, r3)

/-- A JSON number as a value: the token wrapped in `Json.num`. -/
def parseNum (s : Txt) : Option (Json × Txt) :=
  (parseNumTok s).map (fun p => (Json.num p.1, p.2))

mutual

/-- Parse one JSON value (after optional whitespace). -/
def parseVal : Nat → Txt → Option (Json × Txt)
  | 0, _ => none
  | Nat.succ fuel, s0 =>
    match skipWs s0 with
    | [] => none
    | c :: rest =>
        if c = lbrace then parseObjBody fuel rest
        else if c = '[' then parseArrBody fuel rest
        else if c = '"' then
          (parseJStr (rest.length + 1) rest).map (fun (t, r) => (Json.str t, r))
        else if startsWithTxt "true".toList (c :: rest) then
          some (Json.bool true, (c :: rest).drop 4)
        else if startsWithTxt "false".toList (c :: rest) then
          some (Json.bool false, (c :: rest).drop 5)
        else if startsWithTxt "null".toList (c :: rest) then
          some (Json.null, (c :: rest).drop 4)
        else if startsWithTxt "NaN".toList (c :: rest) then
          some (Json.num "NaN".toList, (c :: rest).drop 3)
        else parseNum (c :: rest)

/-- Parse the inside of an object, after the opening brace. -/
def parseObjBody : Nat → Txt → Option (Json × Txt)
  | 0, _ => none
  | Nat.succ fuel, s =>
    match skipWs s with
    | c :: rest =>
        if c = rbrace then some (Json.obj [], rest)
        else
          (parseMembers fuel (c :: rest)).map (fun (ms, r) => (Json.obj ms, r))
    | [] => none

/-- Parse one or more `"key": value` members, consuming the closing brace. -/
def parseMembers : Nat → Txt → Option (List (Txt × Json) × Txt)
  | 0, _ => none
  | Nat.succ fuel, s =>
    match skipWs s with
    | '"' :: rest =>
        (match parseJStr (rest.length + 1) rest with
         | none => none
         | some (key, r1) =>
             match skipWs r1 with
             | ':' :: r2 =>
                 (match parseVal fuel r2 with
                  | none => none
                  | some (v, r3) =>
                      match skipWs r3 with
                      | ',' :: r4 =>
                          (parseMembers fuel r4).map
                            (fun (ms, r) => ((key, v) :: ms, r))
                      | c :: r4 =>
                          if c = rbrace then some ([(key, v)], r4) else none
                      | [] => none)
             | _ => none)
    | _ => none

/-- Parse the inside of an array, after the opening bracket. -/
def parseArrBody : Nat → Txt → Option (Json × Txt)
  | 0, _ => none
  | Nat.succ fuel, s =>
    match skipWs s with
    | ']' :: rest => some (Json.arr [], rest)
    | other =>
        (parseElems fuel other).map (fun (es, r) => (Json.arr es, r))

/-- Parse one or more array elements, consuming the closing bracket. -/
def parseElems : Nat → Txt → Option (List Json × Txt)
  | 0, _ => none
  | Nat.succ fuel, s =>
    match parseVal fuel s with
    | none => none
    | some (v, r1) =>
        match skipWs r1 with
        | ',' :: r2 => (parseElems fuel r2).map (fun (es, r) => (v :: es, r))
        | ']' :: r2 => some ([v], r2)
        | _ => none

end

/-- Embedding of `json.loads`: parse one value and require only whitespace
to remain. -/
def loads (s : Txt) : Option Json :=
  match parseVal (2 * s.length + 4) s with
  | some (v, rest) => if skipWs rest = [] then some v else none
  | none => none

/-! ## Embedding of `ai.py`: response cleaning, category hints, validation -/

/-- Python `\s` whitespace (ASCII part), used by `strip()` and the fence
regex. -/
def isPyWs (c : Char) : Bool :=
  c = ' ' || c = '\t' || c = '\n' || c = '\r' || c = Char.ofNat 11 || c = Char.ofNat 12

/-- Strip characters satisfying `p` from both ends (`str.strip`). -/
def stripChars (p : Char → Bool) (s : Txt) : Txt :=
  ((s.dropWhile p).reverse.dropWhile p).reverse

/-- The backtick character (written numerically). -/
def btick : Char := Char.ofNat 96

/-- One left-to-right pass of the fence-removal substitution of
`clean_json_response` line 183: each occurrence of three backticks, an
optional `json` tag and trailing whitespace is removed. -/
def removeFences : Nat → Txt → Txt
  | 0, s => s
  | Nat.succ fuel, s =>
    match s with
    | c1 :: c2 :: c3 :: rest =>
        if c1 = btick && c2 = btick && c3 = btick then
          let rest1 := if startsWithTxt "json".toList rest then rest.drop 4 else rest
          removeFences fuel (rest1.dropWhile isPyWs)
        else c1 :: removeFences fuel (c2 :: c3 :: rest)
    | c :: rest => c :: removeFences fuel rest
    | [] => []

/-- The cleaned text before brace slicing: fence removal followed by
stripping backticks and then whitespace from both ends
(`clean_json_response` lines 183-184). -/
def cleanStripped (resp : Txt) : Txt :=
  stripChars isPyWs (stripChars (fun c => c = btick) (removeFences resp.length resp))

/-- Index of the first occurrence of `c` (`str.find`, as an `Option`). -/
def findIdx (c : Char) : Txt → Option Nat
  | [] => none
  | a :: rest =>
      if a = c then some 0 else (findIdx c rest).map (fun n => n + 1)

/-- Index of the last occurrence of `c` (`str.rfind`, as an `Option`). -/
def rfindIdx (c : Char) (s : Txt) : Option Nat :=
  match findIdx c s.reverse with
  | some i => some (s.length - 1 - i)
  | none => none

/-- The brace slicing of `clean_json_response` lines 186-192: with
`start = find('{')` and `end = rfind('}') + 1`, the function returns
`cleaned[start:end]` whenever `start != -1` (note `end` is never `-1`:
a missing right brace gives `end = 0` and hence an empty slice), and the
whole cleaned text when `'{'` is absent. -/
def braceSlice (cleaned : Txt) : Txt :=
  match findIdx lbrace cleaned with
  | none => cleaned
  | some st =>
      let en := match rfindIdx rbrace cleaned with
                | none => 0
                | some i => i + 1
      (cleaned.drop st).take (en - st)

/-- Full embedding of `clean_json_response`. -/
def cleanJsonResponse (resp : Txt) : Txt := braceSlice (cleanStripped resp)

/-- `CATEGORY_HINTS` of `ai.py`, in insertion order (Python dicts preserve
it, and `process_transaction` iterates in that order, breaking at the
first match). -/
def categoryHints : List (Txt × Txt) :=
  [("OpenRouter".toList, "Utilities".toList),
   ("Namecheap".toList, "Utilities".toList),
   ("Old Peter".toList, "Food & Dining".toList),
   ("Balam".toList, "Food & Dining".toList),
   ("City Market".toList, "Grocery".toList),
   ("Deckers".toList, "Shopping".toList),
   ("Mood Up".toList, "Shopping".toList),
   ("Cosmet".toList, "Shopping".toList),
   ("Casa De Los Cirios".toList, "Food & Dining".toList)]

/-- The first hint whose key occurs case-insensitively in the merchant
string (`key.lower() in merchant.lower()`). -/
def firstHint (merchant : Txt) : Option (Txt × Txt) :=
  categoryHints.find? (fun kv => containsTxt (lowTxt merchant) (lowTxt kv.1))

/-- Python-level errors surfaced by the embedded pipeline. -/
inductive PyErr where
  | attributeError : PyErr
  | jsonDecodeError : PyErr
  | validationError (e : ValErr) : PyErr
  | aiModelError (inner : PyErr) : PyErr
  | keyError : PyErr
  | external (tag : Nat) : PyErr
deriving DecidableEq, Repr

/-- The part of `process_transaction`'s `try` block that follows
`json.loads` (lines 263-274): read `raw_data.get('merchant', '')` (an
`AttributeError` when the decoded value is not a dict, or when a non-string
merchant value is lower-cased), apply the first matching category hint by
assigning `raw_data['category']`, then validate through
`Transaction.from_dict` and return `to_sheet_row()`. -/
def getMerchant (d : Dict) : Except PyErr Txt :=
  match dictGet d kMerchant with
  | some (Json.str m) => .ok m
  | none => .ok []
  | some _ => .error PyErr.attributeError

/-- See `getMerchant`: hint application and validation on the decoded
value. -/
def applyHintsAndValidate (v : Json) : Except PyErr (List Txt) :=
  match v with
  | Json.obj d =>
      match getMerchant d with
      | .error e => .error e
      | .ok merchant =>
          let d2 := match firstHint merchant with
                    | some kv => dictSet d kCategory (Json.str kv.2)
                    | none => d
          match fromDict d2 with
          | .ok t => .ok (toSheetRow t)
          | .error e => .error (.validationError e)
  | _ => .error PyErr.attributeError

/-- The whole normalisation step applied to a raw model response: clean,
`json.loads` (a failure is the `json.JSONDecodeError` branch), hints and
validation. -/
def processResponse (resp : Txt) : Except PyErr (List Txt) :=
  match loads (cleanJsonResponse resp) with
  | none => .error PyErr.jsonDecodeError
  | some v => applyHintsAndValidate v

end AutoSpend

namespace AutoSpend

/-! ## Embedding of `rate_limiter.py`: `AdaptiveRateLimiter._wait_if_needed`

Wall-clock time is modelled exactly, over `ℤ`: `time.time()` is the `now`
field of the state and `time.sleep(s)` advances it by exactly `s` (the
idealised sleep).  The deque of call timestamps is a sorted list, oldest
first. -/

/-- Rate limiter state: the recorded call timestamps (`self.calls`, oldest
first) together with the current clock. -/
structure RLState where
  calls : List ℤ
  now : ℤ
deriving DecidableEq

/-- The `while self.calls and self.calls[0] < now - self.period:
popleft()` loop. -/
def prune (period now : ℤ) : List ℤ → List ℤ
  | [] => []
  | t :: rest => if t < now - period then prune period now rest else t :: rest

/-- `_wait_if_needed` (lines 76-103): prune, then if the window is full
sleep `period - (now - calls[0])` when positive and prune again, and in
every case record the (possibly postponed) current time.  The returned
state's `now` is the instant at which the guarded call starts.
(`max_calls = 0` would make the Python `self.calls[0]` raise; the model is
only used with positive quotas.) -/
def waitIfNeeded (maxCalls : Nat) (period : ℤ) (st : RLState) : RLState :=
  let now := st.now
  let q1 := prune period now st.calls
  match q1 with
  | [] => { calls := q1 ++ [now], now := now }
  | h :: _ =>
      if maxCalls ≤ q1.length then
        let sleepT := period - (now - h)
        if 0 < sleepT then
          let now2 := now + sleepT
          let q2 := prune period now2 q1
          { calls := q2 ++ [now2], now := now2 }
        else { calls := q1 ++ [now], now := now }
      else { calls := q1 ++ [now], now := now }

/-- Issue `n` rate-limited calls back to back (each new call is made the
instant the previous one returns), collecting the start time of each. -/
def runRapid (maxCalls : Nat) (period : ℤ) : Nat → RLState → List ℤ × RLState
  | 0, st => ([], st)
  | Nat.succ k, st =>
      let st1 := waitIfNeeded maxCalls period st
      let (rest, st2) := runRapid maxCalls period k st1
      (st1.now :: rest, st2)

/-- The number of recorded start times falling in the trailing half-open
window `(t, t + period]`. -/
def startsInWindow (starts : List ℤ) (t period : ℤ) : Nat :=
  (starts.filter (fun s => decide (t < s) && decide (s ≤ t + period))).length

/-! ## Embedding of the tenacity retry wrapper on `prompt_vertex`

`prompt_vertex` is decorated with `retry(stop=stop_after_attempt(3),
wait=wait_exponential(multiplier=1, min=4, max=10))` outside
`rate_limit(max_calls=60, period=60)`.  The retry combinator is modelled
from the library's documented semantics (its source is not part of the
repository): at most three attempts, each failure of a non-final attempt
followed by a clamped exponential sleep, the final attempt's exception
propagating.  The model call itself is an oracle `gen` indexed by attempt
number. -/

/-- Backoff slept after the `n`-th failed attempt (1-based): the
exponential `2^n` clamped into `[min, max] = [4, 10]` seconds. -/
def backoffWait (n : Nat) : ℤ := max 4 (min ((2 : ℤ) ^ n) 10)

/-- Clock advance for a retry backoff sleep (the rate-limiter window keeps
aging while tenacity sleeps). -/
def sleepSt (w : ℤ) (st : RLState) : RLState := { st with now := st.now + w }

/-- Generic three-attempt retry combinator over a stateful action, also
reporting how many attempts were made.  This is `stop_after_attempt(3)`
unrolled: a success returns at once, a failing attempt 1 or 2 is retried
after the backoff sleep, and the third failure's exception propagates. -/
def retryThree {St A : Type} (act : Nat → St → Except PyErr A × St)
    (slp : ℤ → St → St) (st : St) : Except PyErr A × St × Nat :=
  match act 0 st with
  | (.ok a, s1) => (.ok a, s1, 1)
  | (.error _, s1) =>
    match act 1 (slp (backoffWait 1) s1) with
    | (.ok a, s2) => (.ok a, s2, 2)
    | (.error _, s2) =>
      match act 2 (slp (backoffWait 2) s2) with
      | (.ok a, s3) => (.ok a, s3, 3)
      | (.error e, s3) => (.error e, s3, 3)

/-- One attempt of `prompt_vertex` (lines 195-229): enter the rate limiter
(`@rate_limit(max_calls=60, period=60, name="gemini-api")`), then call the
model.  An exception from the call is wrapped as
`AIModelError(...) from e`; an empty response text is returned as `None`
(`response.text if response.text else None`). -/
def promptVertexAttempt (gen : Nat → Except PyErr Txt) (n : Nat)
    (st : RLState) : Except PyErr (Option Txt) × RLState :=
  let st1 := waitIfNeeded 60 60 st
  match gen n with
  | .ok t => (.ok (if t.isEmpty then none else some t), st1)
  | .error e => (.error (PyErr.aiModelError e), st1)

/-- `prompt_vertex` with its decorators: the retry combinator over the
rate-limited attempt. -/
def promptVertex (gen : Nat → Except PyErr Txt) (st : RLState) :
    Except PyErr (Option Txt) × RLState × Nat :=
  retryThree (promptVertexAttempt gen) sleepSt st

/-! ## Embedding of `process_transaction` (`ai.py` lines 232-288) -/

/-- The intermediate record produced by `parse_email`: the dict with keys
`date`, `info`, `account` (a `None` value is `none`). -/
structure RecordI where
  date : Option Txt
  info : Option Txt
  account : Option Txt
deriving DecidableEq, Repr

/-- Python truthiness of `transaction_info.get('info')`: false for a
missing key, `None`, or an empty string. -/
def truthyInfo : Option Txt → Bool
  | none => false
  | some s => !s.isEmpty

/-- `process_transaction`: skip (returning `None`) when `info` is falsy,
without touching the rate limiter; otherwise build the prompt, call
`prompt_vertex` (whose exceptions propagate — the call is outside the
`try`), treat a `None`/empty response as a logged failure returning `None`,
and otherwise run the `try` block: clean, decode, hint-patch, validate —
every exception there is caught and turned into a `None` return. -/
def processTransactionSt (gen : Nat → Except PyErr Txt) (st : RLState)
    (rec : RecordI) : Except PyErr (Option (List Txt)) × RLState :=
  if truthyInfo rec.info then
    match promptVertex gen st with
    | (.error e, st1, _) => (.error e, st1)
    | (.ok none, st1, _) => (.ok none, st1)
    | (.ok (some text), st1, _) =>
        match processResponse text with
        | .ok row => (.ok (some row), st1)
        | .error _ => (.ok none, st1)
  else (.ok none, st)

end AutoSpend

namespace AutoSpend

/-! ## Embedding of `mail.py`: the provider patterns and `parse_email`

The two transaction regexes are embedded with a small backtracking
matcher whose tokens cover exactly the constructs they use: literals, a
greedy one-or-more character class (capturing), an exact-count character
class (capturing) and a two-way literal alternation (non-capturing). -/

/-- Regex tokens for the two provider patterns. -/
inductive Tok where
  | lit : Txt → Tok
  | plusCls : (Char → Bool) → Tok
  | repCls : Nat → (Char → Bool) → Tok
  | alt2 : Txt → Txt → Tok

mutual

/-- Match a token list at the start of `s`, returning the captures.
Greedy classes try the longest take first and backtrack.  The fuel bounds
the depth of one backtracking path; the wrapper below supplies enough for
any input. -/
def matchToksF : Nat → List Tok → Txt → Option (List Txt)
  | 0, _, _ => none
  | Nat.succ _, [], _ => some []
  | Nat.succ fuel, Tok.lit l :: ts, s =>
      if startsWithTxt l s then matchToksF fuel ts (s.drop l.length) else none
  | Nat.succ fuel, Tok.alt2 a b :: ts, s =>
      (match (if startsWithTxt a s then matchToksF fuel ts (s.drop a.length)
              else none) with
       | some caps => some caps
       | none =>
           if startsWithTxt b s then matchToksF fuel ts (s.drop b.length)
           else none)
  | Nat.succ fuel, Tok.repCls n p :: ts, s =>
      if (s.take n).length = n && (s.take n).all p then
        (matchToksF fuel ts (s.drop n)).map (fun caps => s.take n :: caps)
      else none
  | Nat.succ fuel, Tok.plusCls p :: ts, s =>
      tryPlusF fuel ts p s (s.takeWhile p).length

/-- Backtracking loop of a greedy `+` class: try a take of `k` characters,
longest first. -/
def tryPlusF : Nat → List Tok → (Char → Bool) → Txt → Nat → Option (List Txt)
  | 0, _, _, _, _ => none
  | Nat.succ _, _, _, _, 0 => none
  | Nat.succ fuel, ts, p, s, Nat.succ k =>
      match matchToksF fuel ts (s.drop (Nat.succ k)) with
      | some caps => some (s.take (Nat.succ k) :: caps)
      | none => tryPlusF fuel ts p s k

end

/-- Match a token list at the start of `s`, with ample fuel. -/
def matchToks (toks : List Tok) (s : Txt) : Option (List Txt) :=
  matchToksF ((toks.length + 1) * (s.length + 2)) toks s

/-- `re.search`: try the match at every start position, leftmost first. -/
def searchToks (toks : List Tok) : Txt → Option (List Txt)
  | [] => matchToks toks []
  | c :: rest =>
      match matchToks toks (c :: rest) with
      | some caps => some caps
      | none => searchToks toks rest

/-- Characters of the amount class. -/
def amtChar (c : Char) : Bool := isDigitCh c || c = ',' || c = '.'

/-- The `[A-Z]` class. -/
def upperAZ (c : Char) : Bool := 'A' ≤ c && c ≤ 'Z'

/-- The `[^.]` class. -/
def notDot (c : Char) : Bool := !(c = '.')

/-- `wise_pattern` of `mail.py` line 209. -/
def wisePattern : List Tok :=
  [Tok.lit "You spent ".toList, Tok.plusCls amtChar, Tok.lit [' '],
   Tok.repCls 3 upperAZ, Tok.lit " at ".toList, Tok.plusCls notDot]

/-- `paypal_pattern` of `mail.py` lines 210-212. -/
def paypalPattern : List Tok :=
  [Tok.lit "Sie haben ".toList, Tok.plusCls amtChar, Tok.lit [' '],
   Tok.repCls 3 upperAZ, Tok.lit [' '], Tok.alt2 "an ".toList "to ".toList,
   Tok.plusCls notDot, Tok.lit " gesendet".toList]

/-- The normalised info line both branches build. -/
def mkInfo (a c m : Txt) : Txt :=
  "You spent ".toList ++ a ++ [' '] ++ c ++ " at ".toList ++ m ++ ['.']

/-- Lines 214-227: the Wise match wins over the PayPal match; either yields
the provider-agnostic info text, no match leaves `info` absent. -/
def matchInfo (text : Txt) : Option Txt :=
  match searchToks wisePattern text with
  | some (a :: c :: m :: _) => some (mkInfo a c m)
  | some _ => none
  | none =>
      match searchToks paypalPattern text with
      | some (a :: c :: m :: _) => some (mkInfo a c m)
      | _ => none

/-- `next((h for h in headers if h['name'] == name), None)`. -/
def findHeader (hs : List (Txt × Txt)) (name : Txt) : Option Txt :=
  (hs.find? (fun h => h.1 = name)).map (fun h => h.2)

/-- Lines 192-197: account from the `From` header by substring match. -/
def accountFrom (hs : List (Txt × Txt)) : Option Txt :=
  match findHeader hs "From".toList with
  | none => none
  | some v =>
      if containsTxt v "wise.com".toList then some "Wise".toList
      else if containsTxt v "paypal.de".toList then some "PayPal".toList
      else none

/-- `get_email_body`: the Gmail fetch and part-tree walk are an oracle
returning either the HTML body, `None`, or an exception; the function
catches every exception and returns `None` (lines 133-151). -/
def getEmailBody (fetch : Except PyErr (Option Txt)) : Option Txt :=
  match fetch with
  | .error _ => none
  | .ok b => b

/-- Lines 200-206: the `Date` header run through `parsedate_tz`/
`mktime_tz`/`strftime`, modelled as the oracle `dateFmt` (it may raise;
`parsedate_tz` returning `None` leaves the date absent). -/
def dateFromHeaders (dateFmt : Txt → Except PyErr (Option Txt))
    (hs : List (Txt × Txt)) : Except PyErr (Option Txt) :=
  match findHeader hs "Date".toList with
  | none => .ok none
  | some v => dateFmt v

/-- The body of `parse_email` after the metadata fetch and header
processing succeed. -/
def parseEmailHeaders (dateFmt : Txt → Except PyErr (Option Txt))
    (headers : List (Txt × Txt)) (text : Txt) : RecordI :=
  let acc := accountFrom headers
  match dateFromHeaders dateFmt headers with
  | .error _ => { date := none, info := none, account := acc }
  | .ok dt => { date := dt, info := matchInfo text, account := acc }

/-- Embedding of `parse_email` (lines 153-237).  `soupText` models the
BeautifulSoup title-strip and text extraction (a total library function);
`fetch` and `meta` are the two Gmail API calls, each allowed to raise.
All three result fields start as `None`; a missing body returns early; the
`try` block covers the metadata fetch, header processing and pattern
matching, and its `except` returns whatever fields were set before the
exception. -/
def parseEmailE (soupText : Txt → Txt) (dateFmt : Txt → Except PyErr (Option Txt))
    (fetch : Except PyErr (Option Txt))
    (meta : Except PyErr (List (Txt × Txt))) : Except PyErr RecordI :=
  let d0 : RecordI := { date := none, info := none, account := none }
  match getEmailBody fetch with
  | none => .ok d0
  | some html =>
      let text := soupText html
      match meta with
      | .error _ => .ok d0
      | .ok headers => .ok (parseEmailHeaders dateFmt headers text)

end AutoSpend

namespace AutoSpend

/-! ## Embedding of `main.py`: `process_emails` and `run_pipeline` -/

/-- A Python value flowing into `sheet_data`: `main.py` annotates the list
as `List[Transaction]`, but the value actually appended is whatever
`process_transaction` returns.  Method lookup on it is dynamic. -/
inductive PyVal where
  | ofTrans (t : Transaction) : PyVal
  | ofRow (r : List Txt) : PyVal
deriving DecidableEq

/-- The dynamic call `transaction.to_sheet_row()` of `run_pipeline`
line 161: defined on a `Transaction`, an `AttributeError` on a plain list. -/
def toSheetRowAttr : PyVal → Except PyErr (List Txt)
  | PyVal.ofTrans t => .ok (toSheetRow t)
  | PyVal.ofRow _ => .error PyErr.attributeError

/-- Observable side effects of the orchestration loop, in program order:
appending a record to the batch and durably marking (labelling) a
message. -/
inductive Ev where
  | append (m : Txt) : Ev
  | mark (m : Txt) : Ev
deriving DecidableEq, Repr

/-- The external collaborators of one run, per message id. -/
structure Env where
  soupText : Txt → Txt
  dateFmt : Txt → Except PyErr (Option Txt)
  fetch : Txt → Except PyErr (Option Txt)
  meta : Txt → Except PyErr (List (Txt × Txt))
  gen : Txt → Nat → Except PyErr Txt
  labelId : Option Txt
  labelOk : Txt → Bool

/-- `process_emails` (lines 109-125): for each message, parse, process
through the AI client, and on success append the result to `sheet_data`
FIRST and then, when a label id is available, attempt the durable mark
(`add_label_to_message`; a labelling failure only logs a warning).
An exception from parsing or the AI call propagates and aborts the loop.
The returned event list records appends and successful marks in program
order. -/
def processEmails (env : Env) : List Txt → RLState →
    Except PyErr (List PyVal) × RLState × List Ev
  | [], st => (.ok [], st, [])
  | m :: ms, st =>
      match parseEmailE env.soupText env.dateFmt (env.fetch m) (env.meta m) with
      | .error e => (.error e, st, [])
      | .ok rec =>
          match processTransactionSt (env.gen m) st rec with
          | (.error e, st1) => (.error e, st1, [])
          | (.ok none, st1) => processEmails env ms st1
          | (.ok (some row), st1) =>
              let evs := Ev.append m ::
                (match env.labelId with
                 | some _ => if env.labelOk m then [Ev.mark m] else []
                 | none => [])
              let rest := processEmails env ms st1
              (match rest.1 with
               | .ok vs => .ok (PyVal.ofRow row :: vs)
               | .error e => .error e,
               rest.2.1, evs ++ rest.2.2)

/-- `run_pipeline` (lines 129-203): run `process_emails` inside the big
`try`; an empty batch returns `None`; otherwise build
`[transaction.to_sheet_row() for transaction in transactions]` — a dynamic
method call on each batch element — and hand the rows to the save and
append steps.  Any exception in the `try` is caught and `None` is
returned. -/
def runPipeline (env : Env) (msgs : List Txt) (st : RLState) :
    Option (List (List Txt)) × RLState :=
  match processEmails env msgs st with
  | (.error _, st1, _) => (none, st1)
  | (.ok batch, st1, _) =>
      if batch.isEmpty then (none, st1)
      else
        match batch.mapM toSheetRowAttr with
        | .error _ => (none, st1)
        | .ok rows => (some rows, st1)

end AutoSpend

namespace AutoSpend


/-! ## Concrete fixtures used by the theorems below -/

/-- A fully valid candidate dict (the decoded sample AI answer). -/
def sampleDict : Dict :=
  [("amount".toList, Json.str "45.67".toList),
   ("currency".toList, Json.str "EUR".toList),
   ("merchant".toList, Json.str "Coffee Shop".toList),
   ("category".toList, Json.str "Food & Dining".toList),
   ("date".toList, Json.str "01-05-2023".toList),
   ("time".toList, Json.str "12:34 PM".toList),
   ("account".toList, Json.str "Wise".toList)]

/-- The model response used by several concrete runs (a raw JSON object). -/
def sampleResponse : Txt :=
  "\x7b\"amount\": \"45.67\", \"currency\": \"EUR\", \"merchant\": \"Coffee Shop\", \"category\": \"Food & Dining\", \"date\": \"01-05-2023\", \"time\": \"12:34 PM\", \"account\": \"Wise\"\x7d".toList

/-- The 7-column row the sample response normalises to. -/
def sampleRow : List Txt :=
  ["01-05-2023".toList, "12:34 PM".toList, "Coffee Shop".toList,
   "45.67".toList, "EUR".toList, "Food & Dining".toList, "Wise".toList]

/-- Message id used in the concrete single-message runs. -/
def msgA : Txt := "msg-001".toList

/-- A concrete environment in which everything succeeds: the body matches
the Wise pattern, the metadata has a `wise.com` sender, the model answers
`sampleResponse` on the first attempt, and labelling works. -/
def envOk : Env :=
  { soupText := fun t => t
    dateFmt := fun _ => .ok (some "01-05-2023 12:34 PM".toList)
    fetch := fun _ => .ok (some "Greetings. You spent 45.67 EUR at Coffee Shop. Thanks".toList)
    meta := fun _ => .ok
      [("From".toList, "Wise <noreply@wise.com>".toList),
       ("Date".toList, "Mon, 1 May 2023 12:34:00 +0000".toList)]
    gen := fun _ _ => .ok sampleResponse
    labelId := some "label-1".toList
    labelOk := fun _ => true }

/-- The initial run state: empty rate-limiter window at clock zero. -/
def st0 : RLState := { calls := [], now := 0 }

/-- The candidate dict whose merchant contains the `City Market` hint while
the model proposed category `Other`. -/
def cityDict : Dict :=
  [("amount".toList, Json.str "45.67".toList),
   ("currency".toList, Json.str "EUR".toList),
   ("merchant".toList, Json.str "City Market Branch 3".toList),
   ("category".toList, Json.str "Other".toList),
   ("date".toList, Json.str "01-05-2023".toList),
   ("time".toList, Json.str "12:34 PM".toList),
   ("account".toList, Json.str "Wise".toList)]

/-- The row `cityDict` normalises to (category overridden to `Grocery`). -/
def cityRow : List Txt :=
  ["01-05-2023".toList, "12:34 PM".toList, "City Market Branch 3".toList,
   "45.67".toList, "EUR".toList, "Grocery".toList, "Wise".toList]

/-- A candidate dict whose merchant is the given string and whose other six
fields are fixed and valid. -/
def mkMerchantDict (m : Txt) : Dict :=
  [("amount".toList, Json.str "45.67".toList),
   ("currency".toList, Json.str "EUR".toList),
   ("merchant".toList, Json.str m),
   ("category".toList, Json.str "Food & Dining".toList),
   ("date".toList, Json.str "01-05-2023".toList),
   ("time".toList, Json.str "12:34 PM".toList),
   ("account".toList, Json.str "Wise".toList)]

/-- The transaction `mkMerchantDict m` validates to. -/
def mkMerchantTrans (m : Txt) : Transaction :=
  { amount := "45.67".toList, currency := "EUR".toList, merchant := m,
    category := "Food & Dining".toList, date := "01-05-2023".toList,
    time := "12:34 PM".toList, account := "Wise".toList }

/-- A candidate dict with no `merchant` key at all. -/
def noMerchantDict : Dict :=
  [("amount".toList, Json.str "45.67".toList),
   ("currency".toList, Json.str "EUR".toList),
   ("category".toList, Json.str "Food & Dining".toList),
   ("date".toList, Json.str "01-05-2023".toList),
   ("time".toList, Json.str "12:34 PM".toList),
   ("account".toList, Json.str "Wise".toList)]

/-- A candidate dict whose currency is the given string and whose other six
fields are fixed and valid. -/
def mkCurrencyDict (c : Txt) : Dict :=
  [("amount".toList, Json.str "45.67".toList),
   ("currency".toList, Json.str c),
   ("merchant".toList, Json.str "Coffee Shop".toList),
   ("category".toList, Json.str "Food & Dining".toList),
   ("date".toList, Json.str "01-05-2023".toList),
   ("time".toList, Json.str "12:34 PM".toList),
   ("account".toList, Json.str "Wise".toList)]

/-- The transaction `mkCurrencyDict c` validates to when `c` has length 3:
the currency is upper-cased. -/
def mkCurrencyTrans (c : Txt) : Transaction :=
  { amount := "45.67".toList, currency := upTxt c,
    merchant := "Coffee Shop".toList, category := "Food & Dining".toList,
    date := "01-05-2023".toList, time := "12:34 PM".toList,
    account := "Wise".toList }

/-- A 3-character currency input containing the expanding sharp s
(the Python string `ßab`). -/
def expandingCurrency : Txt := [sharpS, 'a', 'b']

/-- Index of the first occurrence of an event in a trace. -/
def firstIdx (evs : List Ev) (e : Ev) : Option Nat :=
  evs.findIdx? (fun x => x = e)

/-- The ordering property claimed for a message `m`: some mark of `m`
occurs strictly before the first append of `m`. -/
def markPrecedesAppend (evs : List Ev) (m : Txt) : Bool :=
  match firstIdx evs (Ev.mark m), firstIdx evs (Ev.append m) with
  | some i, some j => decide (i < j)
  | _, _ => false

/-- A model-call oracle that fails on every attempt. -/
def genFailAll : Nat → Except PyErr Txt := fun _ => .error (PyErr.external 7)

/-- A model-call oracle that fails twice and succeeds on the third
attempt. -/
def genThirdOk : Nat → Except PyErr Txt := fun n =>
  if n < 2 then .error (PyErr.external 3) else .ok sampleResponse

end AutoSpend

namespace AutoSpend

/-! ## Sanity checks of the embedding on concrete inputs -/

example : (fromDict sampleDict).isOk = true := by decide

example : amountOk "45.6".toList = false := by decide
example : amountOk "466.40".toList = true := by decide
example : dateOk "31-02-2023".toList = false := by decide
example : dateOk "29-02-2024".toList = true := by decide
example : timeOk "0:30 AM".toList = false := by decide
example : timeOk "12:00 AM".toList = true := by decide
example : timeOk "8:59 PM".toList = true := by decide
example : timeOk "08:59 PM".toList = true := by decide
example : timeOk "12:34".toList = false := by decide

set_option maxRecDepth 8000 in
example : processResponse sampleResponse = .ok sampleRow := by rfl

example : processResponse "This is not valid JSON".toList = .error PyErr.jsonDecodeError := by rfl

example :
    cleanJsonResponse ("```json\n\x7b\"a\": 1\x7d\n```".toList) = "\x7b\"a\": 1\x7d".toList := by
  rfl

example : loads "[1, 2]".toList = some (Json.arr [Json.num ['1'], Json.num ['2']]) := by rfl

example : loads "".toList = none := by rfl

example :
    matchInfo "Greetings. You spent 45.67 EUR at Coffee Shop. Thanks".toList =
      some "You spent 45.67 EUR at Coffee Shop.".toList := by rfl

example :
    matchInfo "Sie haben 12,34 EUR an Old Peter gesendet. Danke".toList =
      some "You spent 12,34 EUR at Old Peter.".toList := by rfl

example : matchInfo "Nothing to see here".toList = none := by rfl

example :
    (runRapid 2 60 5 st0).1 = [0, 0, 60, 60, 60] := by rfl

set_option maxRecDepth 8000 in
example :
    processEmails envOk [msgA] st0 =
      (.ok [PyVal.ofRow sampleRow], { calls := [0], now := 0 },
       [Ev.append msgA, Ev.mark msgA]) := by rfl

/-! ## Helper lemmas -/

theorem upTxt_append (s1 s2 : Txt) : upTxt (s1 ++ s2) = upTxt s1 ++ upTxt s2 := by
  induction s1 with
  | nil => rfl
  | cons c cs ih =>
      show upCharStr c ++ upTxt (cs ++ s2) = (upCharStr c ++ upTxt cs) ++ upTxt s2
      rw [ih, List.append_assoc]

/-- Every character of a full-case image maps to itself, so images are
fixed points of `upTxt`. -/
theorem upCharStr_fixed (c : Char) : upTxt (upCharStr c) = upCharStr c := by
  have key : ∀ p ∈ upTable, upTxt p.2 = p.2 := by decide
  unfold upCharStr
  cases hf : upTable.find? (fun p => p.1 = c) with
  | none => simp [upTxt, upCharStr, hf]
  | some p =>
      have hmem := List.mem_of_find?_eq_some hf
      simpa using key p hmem

theorem upTxt_idem (s : Txt) : upTxt (upTxt s) = upTxt s := by
  induction s with
  | nil => rfl
  | cons c cs ih =>
      have hcons : upTxt (c :: cs) = upCharStr c ++ upTxt cs := rfl
      rw [hcons, upTxt_append, upCharStr_fixed, ih]

theorem dictGet_dictSet_self (d : Dict) (k : Txt) (v : Json) :
    dictGet (dictSet d k v) k = some v := by
  induction d with
  | nil => simp [dictGet, dictSet]
  | cons p rest ih =>
      obtain ⟨k0, v0⟩ := p
      simp [dictSet] at ih ⊢
      simp [dictGet, ih]

theorem getStrField_dictSet_self (d : Dict) (k : Txt) (s : Txt) :
    getStrField (dictSet d k (Json.str s)) k = .ok s := by
  simp [getStrField, dictGet_dictSet_self]

/-- Inversion of a successful validation: the produced category is the
string stored under `category`, and the produced currency is the upper-case
image of a length-3 string stored under `currency`. -/
theorem fromDict_ok_inv {d : Dict} {t : Transaction} (h : fromDict d = .ok t) :
    getStrField d kCategory = .ok t.category ∧
    (∃ cur, getStrField d kCurrency = .ok cur ∧ cur.length = 3 ∧
      t.currency = upTxt cur) := by
  unfold fromDict at h
  cases h1 : getStrField d kAmount with
  | error e => simp [h1] at h
  | ok amount =>
  simp only [h1] at h
  by_cases ha : amountOk amount
  case neg => simp [ha] at h
  rw [if_pos ha] at h
  cases h2 : getStrField d kCurrency with
  | error e => simp [h2] at h
  | ok currency =>
  simp only [h2] at h
  by_cases hc : currency.length = 3
  case neg => simp [hc] at h
  rw [if_pos hc] at h
  cases h3 : getStrField d kMerchant with
  | error e => simp [h3] at h
  | ok merchant =>
  simp only [h3] at h
  cases h4 : getStrField d kCategory with
  | error e => simp [h4] at h
  | ok category =>
  simp only [h4] at h
  by_cases hcat : allowedCategories.contains category = true
  case neg => rw [if_neg hcat] at h; simp at h
  rw [if_pos hcat] at h
  cases h5 : getStrField d kDate with
  | error e => simp [h5] at h
  | ok date =>
  simp only [h5] at h
  by_cases hd : dateOk date
  case neg => simp [hd] at h
  rw [if_pos hd] at h
  cases h6 : getStrField d kTime with
  | error e => simp [h6] at h
  | ok time =>
  simp only [h6] at h
  by_cases ht : timeOk time
  case neg => simp [ht] at h
  rw [if_pos ht] at h
  cases h7 : getStrField d kAccount with
  | error e => simp [h7] at h
  | ok account =>
  simp only [h7] at h
  by_cases hacc : allowedAccounts.contains account = true
  case neg => rw [if_neg hacc] at h; simp at h
  rw [if_pos hacc] at h
  simp only [Except.ok.injEq] at h
  subst h
  exact ⟨rfl, currency, rfl, hc, rfl⟩

theorem mem_of_mem_dropWhile {α : Type} (p : α → Bool) {a : α} :
    ∀ {l : List α}, a ∈ l.dropWhile p → a ∈ l := by
  intro l h
  induction l with
  | nil => simp at h
  | cons b bs ih =>
      by_cases hb : p b = true
      · rw [List.dropWhile_cons_of_pos hb] at h
        exact List.mem_cons_of_mem b (ih h)
      · rw [List.dropWhile_cons_of_neg hb] at h
        exact h

theorem findIdx_none_not_mem {c : Char} {s : Txt} (h : findIdx c s = none) :
    ¬ c ∈ s := by
  induction s with
  | nil => simp
  | cons a rest ih =>
      unfold findIdx at h
      by_cases ha : a = c
      · simp [ha] at h
      · rw [if_neg ha] at h
        cases hf : findIdx c rest with
        | some i => simp [hf] at h
        | none => simpa [ha, Ne.symm ha] using ih hf

theorem parseNum_shape {s : Txt} {v : Json} {r : Txt}
    (h : parseNum s = some (v, r)) : ∃ tok, v = Json.num tok := by
  unfold parseNum at h
  cases ht : parseNumTok s with
  | none => simp [ht] at h
  | some p => simp [ht] at h; exact ⟨p.1, h.1.symm⟩

theorem parseArrBody_shape {fuel : Nat} {s : Txt} {v : Json} {r : Txt}
    (h : parseArrBody fuel s = some (v, r)) : ∃ es, v = Json.arr es := by
  cases fuel with
  | zero => simp [parseArrBody] at h
  | succ fuel =>
      unfold parseArrBody at h
      split at h
      · simp at h
        exact ⟨[], h.1.symm⟩
      · cases hpe : parseElems fuel (skipWs s) with
        | none => rw [hpe] at h; simp at h
        | some es => rw [hpe] at h; simp at h; exact ⟨es.1, h.1.symm⟩

theorem parseVal_obj_lbrace {fuel : Nat} {s r : Txt} {d : List (Txt × Json)}
    (h : parseVal fuel s = some (Json.obj d, r)) : lbrace ∈ s := by
  cases fuel with
  | zero => simp [parseVal] at h
  | succ fuel =>
      unfold parseVal at h
      split at h
      · simp at h
      · rename_i c rest heq
        by_cases hc : c = lbrace
        · subst hc
          have hm : lbrace ∈ skipWs s := by rw [heq]; exact List.mem_cons_self _ _
          exact mem_of_mem_dropWhile isJsonWs hm
        · rw [if_neg hc] at h
          by_cases h2 : c = '['
          · rw [if_pos h2] at h
            obtain ⟨es, hes⟩ := parseArrBody_shape h
            simp at hes
          · rw [if_neg h2] at h
            by_cases h3 : c = '"'
            · rw [if_pos h3] at h
              cases hjs : parseJStr (rest.length + 1) rest with
              | none => rw [hjs] at h; simp at h
              | some p => rw [hjs] at h; simp at h
            · rw [if_neg h3] at h
              by_cases h4 : startsWithTxt "true".toList (c :: rest) = true
              · rw [if_pos h4] at h; simp at h
              · rw [if_neg h4] at h
                by_cases h5 : startsWithTxt "false".toList (c :: rest) = true
                · rw [if_pos h5] at h; simp at h
                · rw [if_neg h5] at h
                  by_cases h6 : startsWithTxt "null".toList (c :: rest) = true
                  · rw [if_pos h6] at h; simp at h
                  · rw [if_neg h6] at h
                    by_cases h7 : startsWithTxt "NaN".toList (c :: rest) = true
                    · rw [if_pos h7] at h; simp at h
                    · rw [if_neg h7] at h
                      obtain ⟨tok, htok⟩ := parseNum_shape h
                      simp at htok

theorem loads_obj_lbrace {s : Txt} {d : List (Txt × Json)}
    (h : loads s = some (Json.obj d)) : lbrace ∈ s := by
  unfold loads at h
  cases hp : parseVal (2 * s.length + 4) s with
  | none => rw [hp] at h; simp at h
  | some p =>
      obtain ⟨v, rest⟩ := p
      simp only [hp] at h
      split at h
      · have hv : v = Json.obj d := by simpa using h
        subst hv
        exact parseVal_obj_lbrace hp
      · simp at h

end AutoSpend

namespace AutoSpend

/-! ## Claim theorems -/

/-- C7 counterexample: the claim says a record with an empty merchant is
rejected, but the Pydantic model declares `merchant: str` with no
non-emptiness constraint, so a candidate whose merchant is the empty string
and whose other six fields are valid is accepted as a whole transaction. -/
theorem C7_counterexample_empty_merchant_accepted :
    fromDict (mkMerchantDict []) = .ok (mkMerchantTrans []) ∧
    (mkMerchantTrans []).merchant = [] := ⟨rfl, rfl⟩

/-- C7 amended: validation requires the merchant field to be present as a
string but places no constraint on its content — any merchant string,
including the empty one, is accepted when the other fields are valid, while
a record missing the merchant key is rejected as a whole. -/
theorem C7_merchant_any_string (m : Txt) :
    fromDict (mkMerchantDict m) = .ok (mkMerchantTrans m) ∧
    fromDict noMerchantDict = .error (ValErr.missing kMerchant) := ⟨rfl, rfl⟩

/-- C9 counterexample: the claim asserts every validated transaction has a
currency of length exactly 3, but `str.upper()` is not length-preserving
and Pydantic does not re-check the length after the `mode`-after
`uppercase_currency` validator: the 3-character input `ßab` passes the
length check and validates to the currency `SSAB` of length 4. -/
theorem C9_counterexample_currency_expands :
    expandingCurrency.length = 3 ∧
    fromDict (mkCurrencyDict expandingCurrency) =
      .ok (mkCurrencyTrans expandingCurrency) ∧
    (mkCurrencyTrans expandingCurrency).currency = "SSAB".toList ∧
    (mkCurrencyTrans expandingCurrency).currency.length = 4 ∧
    ¬ (mkCurrencyTrans expandingCurrency).currency.length = 3 :=
  ⟨rfl, rfl, rfl, rfl, by decide⟩

/-- C9 amended: the currency validator accepts any 3-character input
string — alphabetic characters are not required, lower-case codes are
normalised rather than rejected — and upper-cases it, so every validated
transaction's currency is the upper-case image of a length-3 input and
equals its own upper-case form; the length-3 check applies to the input
only, so the validated currency itself has length 3 exactly when
upper-casing does not expand (it does for inputs containing `ß`). -/
theorem C9_currency_upper_amended :
    (∀ (d : Dict) (t : Transaction), fromDict d = .ok t →
        (∃ cur, cur.length = 3 ∧ t.currency = upTxt cur) ∧
        upTxt t.currency = t.currency) ∧
    (∀ c : Txt, c.length = 3 →
        fromDict (mkCurrencyDict c) = .ok (mkCurrencyTrans c)) := by
  constructor
  · intro d t h
    obtain ⟨-, cur, -, hlen, hcur⟩ := fromDict_ok_inv h
    refine ⟨⟨cur, hlen, hcur⟩, ?_⟩
    rw [hcur, upTxt_idem]
  · intro c hc
    have hred : fromDict (mkCurrencyDict c) =
        if c.length = 3 then .ok (mkCurrencyTrans c)
        else .error (ValErr.badValue kCurrency) := rfl
    rw [hred, if_pos hc]

/-- C9 witness: the non-alphabetic 3-character currency `12a` and the
lower-case `usd` are both accepted and normalised to their upper-case
forms, which are their own upper-case images. -/
theorem C9_currency_amended_witness :
    fromDict (mkCurrencyDict "12a".toList) =
      .ok (mkCurrencyTrans "12a".toList) ∧
    (mkCurrencyTrans "12a".toList).currency = "12A".toList ∧
    fromDict (mkCurrencyDict "usd".toList) =
      .ok (mkCurrencyTrans "usd".toList) ∧
    (mkCurrencyTrans "usd".toList).currency = "USD".toList ∧
    upTxt (mkCurrencyTrans "12a".toList).currency =
      (mkCurrencyTrans "12a".toList).currency := by
  refine ⟨C9_currency_upper_amended.2 "12a".toList (by decide), rfl,
          C9_currency_upper_amended.2 "usd".toList (by decide), rfl, ?_⟩
  exact (C9_currency_upper_amended.1 (mkCurrencyDict "12a".toList)
    (mkCurrencyTrans "12a".toList)
    (C9_currency_upper_amended.2 "12a".toList (by decide))).2

/-- C6: when the response normalises successfully and the decoded merchant
string case-insensitively contains a hint-table entry, the final row's
category column equals the category of the first matching entry
(`firstHint` scans `CATEGORY_HINTS` in table order), overriding whatever
category the model proposed. -/
theorem C6_hint_precedence (d : Dict) (row : List Txt) (m : Txt)
    (kv : Txt × Txt) (hm : getMerchant d = .ok m)
    (hh : firstHint m = some kv)
    (hrow : applyHintsAndValidate (Json.obj d) = .ok row) :
    row.get? 5 = some kv.2 := by
  simp only [applyHintsAndValidate] at hrow
  rw [hm] at hrow
  simp only [hh] at hrow
  cases hfd : fromDict (dictSet d kCategory (Json.str kv.2)) with
  | error e => rw [hfd] at hrow; simp at hrow
  | ok t =>
      rw [hfd] at hrow
      simp at hrow
      obtain ⟨hcat, -⟩ := fromDict_ok_inv hfd
      rw [getStrField_dictSet_self] at hcat
      have ht : kv.2 = t.category := by simpa using hcat
      rw [← hrow]
      show some t.category = some kv.2
      rw [ht]

set_option maxRecDepth 8000 in
/-- C6 witness: merchant `City Market Branch 3` with model category `Other`
ends up in category `Grocery`. -/
theorem C6_hint_witness : cityRow.get? 5 = some "Grocery".toList :=
  C6_hint_precedence cityDict cityRow "City Market Branch 3".toList
    ("City Market".toList, "Grocery".toList) rfl rfl rfl

/-- C4 counterexample: for the response `[1, 2]` the left-brace delimiter
is absent, so the claim demands a ParseError; but the delimiter-free text
decodes as a JSON array, and the failure actually raised is the
`AttributeError` of `raw_data.get('merchant', '')` on a list (caught by the
generic handler and logged as a validation error), not a
`json.JSONDecodeError`. -/
theorem C4_counterexample_array_response :
    findIdx lbrace (cleanStripped "[1, 2]".toList) = none ∧
    processResponse "[1, 2]".toList = .error PyErr.attributeError ∧
    PyErr.attributeError ≠ PyErr.jsonDecodeError :=
  ⟨rfl, rfl, by decide⟩

/-- C4 amended: whenever the first left brace or last right brace is absent
from the cleaned text, or the decoded candidate is not valid JSON, the
normaliser fails and never returns a transaction built from other text;
the failure is the JSONDecodeError branch whenever the candidate fails to
decode (in particular always when a left brace is present), and the
dictionary-access failure in the one remaining corner where the
delimiter-free text is itself valid non-object JSON. -/
theorem C4_bad_json_always_fails (resp : Txt)
    (h : findIdx lbrace (cleanStripped resp) = none ∨
         rfindIdx rbrace (cleanStripped resp) = none ∨
         loads (cleanJsonResponse resp) = none) :
    (∃ e, processResponse resp = .error e) ∧
    (loads (cleanJsonResponse resp) = none →
       processResponse resp = .error PyErr.jsonDecodeError) := by
  refine ⟨?_, fun hn => by simp [processResponse, hn]⟩
  cases hl : loads (cleanJsonResponse resp) with
  | none => exact ⟨PyErr.jsonDecodeError, by simp [processResponse, hl]⟩
  | some v =>
      have hv_not_obj : ∀ dct, v ≠ Json.obj dct := by
        intro dct hvd
        subst hvd
        have hmem := loads_obj_lbrace hl
        rcases h with h1 | h2 | h3
        · have hbs : cleanJsonResponse resp = cleanStripped resp := by
            simp [cleanJsonResponse, braceSlice, h1]
          rw [hbs] at hmem
          exact findIdx_none_not_mem h1 hmem
        · cases hf : findIdx lbrace (cleanStripped resp) with
          | none =>
              have hbs : cleanJsonResponse resp = cleanStripped resp := by
                simp [cleanJsonResponse, braceSlice, hf]
              rw [hbs] at hmem
              exact findIdx_none_not_mem hf hmem
          | some st =>
              have hbs : cleanJsonResponse resp = [] := by
                simp [cleanJsonResponse, braceSlice, hf, h2]
              rw [hbs] at hl
              rw [show loads ([] : Txt) = none from rfl] at hl
              exact absurd hl (by simp)
        · rw [h3] at hl
          exact absurd hl (by simp)
      cases v with
      | obj dct => exact absurd rfl (hv_not_obj dct)
      | null =>
          exact ⟨PyErr.attributeError, by simp [processResponse, hl, applyHintsAndValidate]⟩
      | bool b =>
          exact ⟨PyErr.attributeError, by simp [processResponse, hl, applyHintsAndValidate]⟩
      | num tok =>
          exact ⟨PyErr.attributeError, by simp [processResponse, hl, applyHintsAndValidate]⟩
      | str s2 =>
          exact ⟨PyErr.attributeError, by simp [processResponse, hl, applyHintsAndValidate]⟩
      | arr es =>
          exact ⟨PyErr.attributeError, by simp [processResponse, hl, applyHintsAndValidate]⟩

/-- C4 witness: a response with no braces and no valid JSON fails with the
JSONDecodeError branch. -/
theorem C4_bad_json_witness :
    processResponse "no json here".toList = .error PyErr.jsonDecodeError :=
  (C4_bad_json_always_fails "no json here".toList (Or.inl rfl)).2 rfl

/-- C2: the retried `prompt_vertex` makes at most 3 attempts; its outcome
and state depend only on the first three attempt results (no fourth attempt
is consulted); when every attempt raises, the exception of the third
attempt propagates wrapped as `AIModelError` after exactly 3 attempts; when
the first two raise and the third succeeds, the third attempt's result is
returned after exactly 3 attempts, each failed non-final attempt being
followed by the clamped exponential backoff sleep (`sleepSt`/`backoffWait`
inside `retryThree`). -/
theorem C2_retry_three_attempts (gen gen2 : Nat → Except PyErr Txt)
    (st : RLState) :
    (promptVertex gen st).2.2 ≤ 3 ∧
    ((∀ i, i < 3 → gen i = gen2 i) →
      promptVertex gen st = promptVertex gen2 st) ∧
    (∀ e0 e1 e2, gen 0 = .error e0 → gen 1 = .error e1 → gen 2 = .error e2 →
      (promptVertex gen st).1 = .error (PyErr.aiModelError e2) ∧
      (promptVertex gen st).2.2 = 3) ∧
    (∀ e0 e1 t, gen 0 = .error e0 → gen 1 = .error e1 → gen 2 = .ok t →
      (promptVertex gen st).1 = .ok (if t.isEmpty then none else some t) ∧
      (promptVertex gen st).2.2 = 3) := by
  refine ⟨?_, ?_, ?_, ?_⟩
  · cases g0 : gen 0 <;> cases g1 : gen 1 <;> cases g2 : gen 2 <;>
      simp [promptVertex, retryThree, promptVertexAttempt, g0, g1, g2]
  · intro hag
    have e0 := hag 0 (by omega)
    have e1 := hag 1 (by omega)
    have e2 := hag 2 (by omega)
    unfold promptVertex retryThree promptVertexAttempt
    rw [e0, e1, e2]
  · intro e0 e1 e2 g0 g1 g2
    simp [promptVertex, retryThree, promptVertexAttempt, g0, g1, g2]
  · intro e0 e1 t g0 g1 g2
    simp [promptVertex, retryThree, promptVertexAttempt, g0, g1, g2]

/-- C2 witness: an oracle failing on every attempt yields the wrapped
`AIModelError` of the third failure after exactly 3 attempts; an oracle
failing twice and succeeding on the third attempt returns that response
after exactly 3 attempts. -/
theorem C2_retry_witness :
    ((promptVertex genFailAll st0).1 =
        .error (PyErr.aiModelError (PyErr.external 7)) ∧
      (promptVertex genFailAll st0).2.2 = 3) ∧
    ((promptVertex genThirdOk st0).1 = .ok (some sampleResponse) ∧
      (promptVertex genThirdOk st0).2.2 = 3) := by
  constructor
  · exact (C2_retry_three_attempts genFailAll genFailAll st0).2.2.1
      (PyErr.external 7) (PyErr.external 7) (PyErr.external 7) rfl rfl rfl
  · have hthird := (C2_retry_three_attempts genThirdOk genThirdOk st0).2.2.2
      (PyErr.external 3) (PyErr.external 3) sampleResponse rfl rfl rfl
    rw [show (if sampleResponse.isEmpty then (none : Option Txt)
          else some sampleResponse) = some sampleResponse from rfl] at hthird
    exact hthird

/-- C8: for a body text matched by neither provider pattern, the
intermediate record's `info` field is `None`, and `process_transaction` on
that record returns `None` without invoking the model or the rate limiter:
the limiter state (and so its recorded call count) is returned unchanged. -/
theorem C8_no_pattern_silent_skip (text : Txt)
    (dateFmt : Txt → Except PyErr (Option Txt)) (headers : List (Txt × Txt))
    (gen : Nat → Except PyErr Txt) (st : RLState)
    (hw : searchToks wisePattern text = none)
    (hp : searchToks paypalPattern text = none) :
    (parseEmailHeaders dateFmt headers text).info = none ∧
    processTransactionSt gen st (parseEmailHeaders dateFmt headers text) =
      (.ok none, st) := by
  have hmi : matchInfo text = none := by simp [matchInfo, hw, hp]
  have hinfo : (parseEmailHeaders dateFmt headers text).info = none := by
    unfold parseEmailHeaders
    cases hdt : dateFromHeaders dateFmt headers with
    | error e => simp
    | ok dt => simp [hmi]
  refine ⟨hinfo, ?_⟩
  have hfalse : truthyInfo (parseEmailHeaders dateFmt headers text).info = false := by
    rw [hinfo]; rfl
  simp [processTransactionSt, hfalse]

/-- C8 witness: an informational body with no transaction phrasing is
skipped with the limiter state untouched. -/
theorem C8_no_pattern_witness :
    (parseEmailHeaders (fun _ => .ok none) [] "Hello there".toList).info = none ∧
    processTransactionSt genFailAll st0
      (parseEmailHeaders (fun _ => .ok none) [] "Hello there".toList) =
      (.ok none, st0) :=
  C8_no_pattern_silent_skip "Hello there".toList (fun _ => .ok none) []
    genFailAll st0 rfl rfl

/-- C10: `parse_email` is total over its error cases: it always returns a
record with the three fields `date`, `info`, `account`; a body that cannot
be fetched, or a metadata fetch that raises, leaves every field `None`; and
a record with `info` absent is treated by `process_transaction` exactly
like a no-pattern silent skip (`None` result, state unchanged). -/
theorem C10_parse_email_total (soupText : Txt → Txt)
    (dateFmt : Txt → Except PyErr (Option Txt))
    (fetch : Except PyErr (Option Txt))
    (meta : Except PyErr (List (Txt × Txt))) :
    (∃ r : RecordI, parseEmailE soupText dateFmt fetch meta = .ok r) ∧
    (getEmailBody fetch = none →
      parseEmailE soupText dateFmt fetch meta =
        .ok { date := none, info := none, account := none }) ∧
    (∀ e, meta = .error e →
      parseEmailE soupText dateFmt fetch meta =
        .ok { date := none, info := none, account := none }) ∧
    (∀ r, parseEmailE soupText dateFmt fetch meta = .ok r → r.info = none →
      ∀ gen st, processTransactionSt gen st r = (.ok none, st)) := by
  refine ⟨?_, ?_, ?_, ?_⟩
  · cases hb : getEmailBody fetch with
    | none =>
        exact ⟨{ date := none, info := none, account := none },
          by simp [parseEmailE, hb]⟩
    | some html =>
        cases hm : meta with
        | error e =>
            exact ⟨{ date := none, info := none, account := none },
              by simp [parseEmailE, hb]⟩
        | ok headers =>
            exact ⟨parseEmailHeaders dateFmt headers (soupText html),
              by simp [parseEmailE, hb]⟩
  · intro hb
    simp [parseEmailE, hb]
  · intro e hm
    cases hb : getEmailBody fetch with
    | none => simp [parseEmailE, hb]
    | some html => simp [parseEmailE, hb, hm]
  · intro r hr hinfo gen st
    have hfalse : truthyInfo r.info = false := by rw [hinfo]; rfl
    simp [processTransactionSt, hfalse]

/-- C10 witness: a failing body fetch and a raising metadata fetch each
yield the all-`None` record without an exception escaping. -/
theorem C10_parse_email_witness :
    parseEmailE (fun t => t) (fun _ => .ok none) (.error (PyErr.external 1))
        (.ok []) = .ok { date := none, info := none, account := none } ∧
    parseEmailE (fun t => t) (fun _ => .ok none) (.ok (some "Body".toList))
        (.error (PyErr.external 2)) =
      .ok { date := none, info := none, account := none } :=
  ⟨(C10_parse_email_total (fun t => t) (fun _ => .ok none)
      (.error (PyErr.external 1)) (.ok [])).2.1 rfl,
   (C10_parse_email_total (fun t => t) (fun _ => .ok none)
      (.ok (some "Body".toList)) (.error (PyErr.external 2))).2.2.1
      (PyErr.external 2) rfl⟩

/-- Adjacency is preserved when an append event is prepended. -/
theorem goodAux_cons_append (m0 : Txt) (evs : List Ev)
    (h : ∀ i m, evs.get? i = some (Ev.mark m) →
      0 < i ∧ evs.get? (i - 1) = some (Ev.append m)) :
    ∀ i m, (Ev.append m0 :: evs).get? i = some (Ev.mark m) →
      0 < i ∧ (Ev.append m0 :: evs).get? (i - 1) = some (Ev.append m) := by
  intro i m hi
  cases i with
  | zero => simp at hi
  | succ j =>
      rw [List.get?_cons_succ] at hi
      obtain ⟨hj, hap⟩ := h j m hi
      refine ⟨Nat.succ_pos j, ?_⟩
      simp only [Nat.succ_sub_one]
      have hj2 : j = (j - 1) + 1 := by omega
      rw [hj2, List.get?_cons_succ]
      exact hap

/-- Adjacency is preserved when an append-then-mark block is prepended. -/
theorem goodAux_cons_append_mark (m0 : Txt) (evs : List Ev)
    (h : ∀ i m, evs.get? i = some (Ev.mark m) →
      0 < i ∧ evs.get? (i - 1) = some (Ev.append m)) :
    ∀ i m, (Ev.append m0 :: Ev.mark m0 :: evs).get? i = some (Ev.mark m) →
      0 < i ∧
        (Ev.append m0 :: Ev.mark m0 :: evs).get? (i - 1) =
          some (Ev.append m) := by
  intro i m hi
  cases i with
  | zero => simp at hi
  | succ j =>
      cases j with
      | zero =>
          rw [List.get?_cons_succ, List.get?_cons_zero] at hi
          have hm : m0 = m := by simpa using hi
          subst hm
          exact ⟨Nat.one_pos, rfl⟩
      | succ k =>
          rw [List.get?_cons_succ, List.get?_cons_succ] at hi
          obtain ⟨hk, hap⟩ := h k m hi
          refine ⟨by omega, ?_⟩
          simp only [Nat.succ_sub_one]
          rw [List.get?_cons_succ]
          have hk2 : k = (k - 1) + 1 := by omega
          rw [hk2, List.get?_cons_succ]
          exact hap

/-- The one-step unfolding of `process_emails` on a non-empty message
list (definitional). -/
theorem processEmails_cons (env : Env) (m0 : Txt) (ms : List Txt)
    (st : RLState) :
    processEmails env (m0 :: ms) st =
      match parseEmailE env.soupText env.dateFmt (env.fetch m0) (env.meta m0) with
      | .error e => (.error e, st, [])
      | .ok rec =>
          match processTransactionSt (env.gen m0) st rec with
          | (.error e, st1) => (.error e, st1, [])
          | (.ok none, st1) => processEmails env ms st1
          | (.ok (some row), st1) =>
              let evs := Ev.append m0 ::
                (match env.labelId with
                 | some _ => if env.labelOk m0 then [Ev.mark m0] else []
                 | none => [])
              let rest := processEmails env ms st1
              (match rest.1 with
               | .ok vs => .ok (PyVal.ofRow row :: vs)
               | .error e => .error e,
               rest.2.1, evs ++ rest.2.2) := rfl

/-- One step of `process_emails` either produces no events (a parse or AI
exception, or a skip recursing directly) or contributes, before the events
of the remaining messages, an append alone or an append immediately
followed by a mark. -/
theorem processEmails_cons_trace (env : Env) (m0 : Txt) (ms : List Txt)
    (st : RLState) :
    (processEmails env (m0 :: ms) st).2.2 = [] ∨
    ∃ st1,
      (processEmails env (m0 :: ms) st).2.2 =
          (processEmails env ms st1).2.2 ∨
      (processEmails env (m0 :: ms) st).2.2 =
          Ev.append m0 :: (processEmails env ms st1).2.2 ∨
      (processEmails env (m0 :: ms) st).2.2 =
          Ev.append m0 :: Ev.mark m0 :: (processEmails env ms st1).2.2 := by
  rw [processEmails_cons]
  cases hpe : parseEmailE env.soupText env.dateFmt (env.fetch m0) (env.meta m0) with
  | error e => exact Or.inl rfl
  | ok rec =>
      simp only
      rcases hpt : processTransactionSt (env.gen m0) st rec with ⟨res, st1⟩
      cases res with
      | error e => exact Or.inl rfl
      | ok o =>
          cases o with
          | none => exact Or.inr ⟨st1, Or.inl rfl⟩
          | some row =>
              refine Or.inr ⟨st1, ?_⟩
              cases hl : env.labelId with
              | none => exact Or.inr (Or.inl rfl)
              | some lid =>
                  cases hok : env.labelOk m0 with
                  | true => exact Or.inr (Or.inr rfl)
                  | false => exact Or.inr (Or.inl rfl)

/-- C3 amended: in every run of the orchestration loop, a durable mark for
a message appears in the event trace only immediately after the append of
that message's record to the batch — the record is appended to `sheet_data`
first and the label applied second, and a mark is only ever emitted in the
branch where normalization succeeded. -/
theorem C3_marks_follow_appends (env : Env) (msgs : List Txt) (st : RLState) :
    ∀ i m, (processEmails env msgs st).2.2.get? i = some (Ev.mark m) →
      0 < i ∧
        (processEmails env msgs st).2.2.get? (i - 1) =
          some (Ev.append m) := by
  induction msgs generalizing st with
  | nil => intro i m h; simp [processEmails] at h
  | cons m0 ms ih =>
      rcases processEmails_cons_trace env m0 ms st with hnil | ⟨st1, hs | hs | hs⟩
      · intro i m h; rw [hnil] at h; simp at h
      · intro i m h
        rw [hs] at h ⊢
        exact ih st1 i m h
      · intro i m h
        rw [hs] at h ⊢
        exact goodAux_cons_append m0 _ (ih st1) i m h
      · intro i m h
        rw [hs] at h ⊢
        exact goodAux_cons_append_mark m0 _ (ih st1) i m h

set_option maxRecDepth 8000 in
/-- C3 witness: in the concrete successful single-message run the mark at
index 1 is immediately preceded by the append at index 0. -/
theorem C3_marks_follow_appends_witness :
    0 < 1 ∧
      (processEmails envOk [msgA] st0).2.2.get? (1 - 1) =
        some (Ev.append msgA) :=
  C3_marks_follow_appends envOk [msgA] st0 1 msgA rfl

set_option maxRecDepth 8000 in
/-- C3 counterexample: the claim states the orchestrator marks first and
appends second, but in the concrete successful run the trace is
`[append, mark]`: the record is appended to the batch before
`add_label_to_message` is called, so no mark of the message precedes its
append. -/
theorem C3_counterexample_append_first :
    (processEmails envOk [msgA] st0).2.2 = [Ev.append msgA, Ev.mark msgA] ∧
    markPrecedesAppend (processEmails envOk [msgA] st0).2.2 msgA = false :=
  ⟨rfl, rfl⟩

set_option maxRecDepth 8000 in
/-- C1: in a run whose single candidate message parses, is AI-processed and
validates successfully, `process_emails` returns the batch holding the
7-column row (and `to_sheet_row` on a `Transaction` is always the fixed
positional order date, time, merchant, amount, currency, category,
account); but `run_pipeline` then calls `.to_sheet_row()` again on each
batch element — a plain list, since `process_transaction` already returned
`transaction.to_sheet_row()` — so the comprehension raises
`AttributeError`, the `except` swallows it, and the pipeline returns `None`
instead of handing the batch to the save and append steps. -/
theorem C1_pipeline_returns_none_despite_success :
    (processEmails envOk [msgA] st0).1 = .ok [PyVal.ofRow sampleRow] ∧
    sampleRow.length = 7 ∧
    (∀ t : Transaction, toSheetRow t =
      [t.date, t.time, t.merchant, t.amount, t.currency, t.category,
       t.account]) ∧
    toSheetRowAttr (PyVal.ofRow sampleRow) = .error PyErr.attributeError ∧
    (runPipeline envOk [msgA] st0).1 = none :=
  ⟨rfl, rfl, fun _ => rfl, rfl, rfl⟩

/-- C5: with `max_calls = 2` and `period = 60`, five calls in rapid
succession under the exact-time model start at `[0, 0, 60, 60, 60]`: the
third call is blocked for the full 60 seconds until the oldest timestamp
leaves the trailing window (the blocking half of the claim), but because
the re-prune after the sleep uses a strict comparison, the timestamp aged
exactly `period` is kept, `sleep_time` computes to `0` for the fourth and
fifth calls, and they are admitted immediately — three starts fall inside
the rolling 60-second window `(30, 90]`, exceeding the quota of 2. -/
theorem C5_window_boundary_overflow :
    (runRapid 2 60 5 st0).1 = [0, 0, 60, 60, 60] ∧
    startsInWindow (runRapid 2 60 5 st0).1 30 60 = 3 ∧
    ¬ startsInWindow (runRapid 2 60 5 st0).1 30 60 ≤ 2 :=
  ⟨rfl, rfl, by decide⟩

end AutoSpend
